import Mathlib

/-!
Verification of the orchestration layer of a trusted-dealer resharing driver
(`src/main.go`).  The program defines a fixed committee (one importer, three
signers), a broadcast router over a shared outbound stream, a completion
collector, and a final modular-sum reconstruction check.  The ECDSA and EdDSA
runs (`runECDSAResharing`, `runEDDSAResharing`) are textually identical in the
orchestration logic modelled here; definitions below cite both line ranges.
-/

/-- A party identity as built by `tss.NewPartyID(id, moniker, key)`:
an id string, a display moniker, and an arbitrary-precision integer key
(`KeyInt`).  See `src/main.go:51-56` and `src/main.go:245-250`. -/
structure PartyID where
  id : String
  moniker : String
  key : Int
deriving DecidableEq, Repr

/-- The importer party, `tss.NewPartyID("importer", "Importer", big.NewInt(0))`
(`src/main.go:51`, `src/main.go:245`). -/
def importerParty : PartyID := ⟨"importer", "Importer", 0⟩

/-- The three signer parties (`src/main.go:52-56`, `src/main.go:246-250`). -/
def signerParties : List PartyID :=
  [⟨"signer1", "Signer1", 1⟩, ⟨"signer2", "Signer2", 2⟩, ⟨"signer3", "Signer3", 3⟩]

/-- Routing metadata of an outbound message, as returned by
`tss.Message.WireBytes`: the explicit recipient list `routing.To` and the
`routing.IsBroadcast` flag (`src/main.go:188`, `src/main.go:353`). -/
structure MessageRouting where
  To : List PartyID
  isBroadcast : Bool
deriving DecidableEq, Repr

/-- An envelope on the shared outbound stream: the sending party (`m.from`)
and the result of `m.data.WireBytes()` — `none` models a serialization error
(`err != nil` at `src/main.go:188-192`, `src/main.go:353-357`), otherwise the
opaque payload bytes and the routing header. -/
structure WireMsg where
  sender : PartyID
  wire : Option (List Nat × MessageRouting)

/-- The per-party engine instance as used by the router: only its
`UpdateFromBytes(payload, from, isBroadcast)` method is invoked, returning
`(ok, err)` (`src/main.go:204`, `src/main.go:369`). -/
structure LocalParty where
  updateFromBytes : List Nat → PartyID → Bool → Bool × Option String

/-- Non-fatal events the router logs and continues past
(`src/main.go:190,196,201,206,209` and `src/main.go:355,361,366,371,374`). -/
inductive RouteError where
  /-- `WireBytes` failed for the envelope; the whole envelope is skipped. -/
  | serializeError (senderId : String)
  /-- `partyMap[to.Id]` was nil: the recipient has no engine instance. -/
  | missingParty (recipientId : String)
  /-- `UpdateFromBytes` returned a non-nil error. -/
  | updateError (recipientId senderId : String)
  /-- `UpdateFromBytes` returned `ok = false`. -/
  | notOk (recipientId senderId : String)
deriving DecidableEq, Repr

/-- One iteration of the router's inner loop body for a single recipient `to`
(`src/main.go:194-212`, `src/main.go:359-377`): skip the sender itself, skip
(with an error) a recipient with no engine, otherwise call `UpdateFromBytes`
and record its error / not-ok outcomes.  Returns the `(senderId, recipientId)`
pairs on which `UpdateFromBytes` was invoked, and the errors recorded. -/
def deliverTo (engines : String → Option LocalParty) (s : PartyID)
    (payload : List Nat) (bc : Bool) (t : PartyID) :
    List (String × String) × List RouteError :=
  if t.id = s.id then ([], [])
  else
    match engines t.id with
    | none => ([], [RouteError.missingParty t.id])
    | some p =>
        let r := p.updateFromBytes payload s bc
        ([(s.id, t.id)],
          (match r.2 with
           | some _ => [RouteError.updateError t.id s.id]
           | none => []) ++
          (if r.1 then [] else [RouteError.notOk t.id s.id]))

/-- The router's inner `for _, to := range routing.To` loop
(`src/main.go:194-212`, `src/main.go:359-377`): every recipient is handled by
`deliverTo` in order, and each `continue` moves on to the next recipient. -/
def routeRecipients (engines : String → Option LocalParty) (s : PartyID)
    (payload : List Nat) (bc : Bool) : List PartyID →
    List (String × String) × List RouteError
  | [] => ([], [])
  | t :: rest =>
      let here := deliverTo engines s payload bc t
      let tail := routeRecipients engines s payload bc rest
      (here.1 ++ tail.1, here.2 ++ tail.2)

/-- Handling of one envelope from the outbound stream
(`src/main.go:187-212`, `src/main.go:352-377`): a serialization failure skips
the whole envelope (`continue` on the outer loop); otherwise the routing
header's recipient list is walked by `routeRecipients`. -/
def routeOne (engines : String → Option LocalParty) (m : WireMsg) :
    List (String × String) × List RouteError :=
  match m.wire with
  | none => ([], [RouteError.serializeError m.sender.id])
  | some pr => routeRecipients engines m.sender pr.1 pr.2.isBroadcast pr.2.To

/-- The router's outer `for m := range outCh` loop
(`src/main.go:186-214`, `src/main.go:351-379`): envelopes on the shared
stream are processed sequentially, in arrival order. -/
def routeAll (engines : String → Option LocalParty) :
    List WireMsg → List (String × String) × List RouteError
  | [] => ([], [])
  | m :: ms =>
      let a := routeOne engines m
      let b := routeAll engines ms
      (a.1 ++ b.1, a.2 ++ b.2)

/-- A party's secret material inside its save data
(`eckeygen.LocalSecrets` / `edkeygen.LocalSecrets`): the share `Xi` and the
`ShareID`, both arbitrary-precision integers (`src/main.go:102-105`,
`src/main.go:279-282`). -/
structure LocalSecrets where
  Xi : Int
  ShareID : Int
deriving DecidableEq, Repr

/-- The part of a party's `LocalPartySaveData` consulted by the orchestration
layer: its `LocalSecrets` (`src/main.go:230`, `src/main.go:395`).  All other
fields are opaque cryptographic material never read back by the driver. -/
structure LocalPartySaveData where
  secrets : LocalSecrets
deriving DecidableEq, Repr

/-- A completion result on the end channel, `ecresult` / `edresult`
(`src/main.go:24-32`): the reporting party and its final save data, tagged by
`makeEcEndCh` / `makeEdEndCh` (`src/main.go:418-436`). -/
structure ecresult where
  pid : PartyID
  data : LocalPartySaveData
deriving DecidableEq, Repr

/-- The two destinations a party's end channel can be wired to: the shared
`signerEndCh` the collector drains, or the `discardEndCh` whose contents are
never read (`src/main.go:85,130`, `src/main.go:263,300`). -/
inductive EndChannel where
  | signerEnd
  | discard
deriving DecidableEq, Repr

/-- The run's end-channel wiring: the importer's instance is built with
`makeEcEndCh(importerParty, discardEndCh)` (`src/main.go:131-136`,
`src/main.go:301-306`) and every signer's with
`makeEcEndCh(pid, signerEndCh)` (`src/main.go:155-160`,
`src/main.go:320-325`). -/
def endChannelAssignment : List (PartyID × EndChannel) :=
  (importerParty, EndChannel.discard)
    :: signerParties.map (fun p => (p, EndChannel.signerEnd))

/-- Go-map insertion `m[k] = v`: overwrite the entry for `k` when present,
append it otherwise.  Models `results[r.pid.Id] = r` (`src/main.go:222`,
`src/main.go:387`). -/
def mapInsert (m : List (String × ecresult)) (k : String) (v : ecresult) :
    List (String × ecresult) :=
  if m.any (fun p => p.1 = k) then
    m.map (fun p => if p.1 = k then (k, v) else p)
  else m ++ [(k, v)]

/-- The expected number of completions the collector blocks for: the literal
loop bound `3` (`src/main.go:218`, `src/main.go:383`), the size of the new
committee. -/
def expectedCompletions : Nat := 3

/-- The collection loop (`src/main.go:217-223`, `src/main.go:382-388`): take
exactly `expectedCompletions` receives from `signerEndCh` — modelled as the
first elements of the channel's delivery stream — and insert each into the
`results` map keyed by `r.pid.Id`. -/
def collectResults (stream : List ecresult) : List (String × ecresult) :=
  (stream.take expectedCompletions).foldl
    (fun acc r => mapInsert acc r.pid.id r) []

/-- The order of secp256k1 (`curve.Params().N` for `tss.S256()`,
`src/main.go:65,235`). -/
def secp256k1N : Int :=
  0xFFFFFFFFFFFFFFFFFFFFFFFFFFFFFFFEBAAEDCE6AF48A03BBFD25E8CD0364141

/-- The order of the ed25519 base-point group (`curve.Params().N` for
`tss.Edwards()`, `src/main.go:259,400`). -/
def ed25519N : Int :=
  7237005577332262213973186563042994240857116359379907606001950938285454250989

/-- The importer's plaintext private key, `big.NewInt(0xff)`
(`src/main.go:99`, `src/main.go:277`). -/
def plaintextKey : Int := 0xff

/-- `impSave.LocalSecrets.Xi`, set to the plaintext key at
`src/main.go:102-105` (`src/main.go:279-282`) and never reassigned in the
driver: `NewLocalParty` receives `impSave` by value, so the driver's copy is
untouched by the protocol. -/
def impSaveXi : Int := plaintextKey

/-- The reconstruction value `totalXi`: sum every collected result's
`LocalSecrets.Xi` and reduce modulo the curve order
(`src/main.go:228-235`, `src/main.go:393-400`).  Go map iteration order is
unspecified; integer addition is commutative, so insertion order is a
faithful representative. -/
def totalXi (N : Int) (results : List (String × ecresult)) : Int :=
  (results.foldl (fun acc r => acc + r.2.data.secrets.Xi) 0) % N

/-- The verification comparison exactly as written at `src/main.go:228-240`
(`src/main.go:393-405`): `totalXi` is computed, then the branch tests
`plaintextKey.Cmp(impSave.LocalSecrets.Xi) != 0`; `true` means the run prints
the success line, `false` means `log.Fatalf`.  Note the comparison does not
mention `totalXi`. -/
def runVerification (N : Int) (results : List (String × ecresult)) : Bool :=
  let _t := totalXi N results
  plaintextKey == impSaveXi

/-- The comparison the surrounding comments and the `log.Fatalf` message
describe (`src/main.go:227,236,238`): the reconstructed `totalXi` against the
importer's original key. -/
def intendedVerification (N : Int) (results : List (String × ecresult)) : Bool :=
  totalXi N results == impSaveXi

/-- Outcome of a run once the engines have been started. -/
inductive RunPhase where
  | failed
  | verified (ok : Bool)
deriving DecidableEq, Repr

/-- The run after launching every engine (`src/main.go:167-184`,
`src/main.go:332-349`): any party whose `Start()` returns an error aborts the
whole process (`panic` for a signer, `log.Fatalf` for the importer), so the
run fails with no verification; otherwise the collected results are verified
(`src/main.go:227-240`, `src/main.go:392-405`).  `startErrs` lists each
party's `Start()` error, `none` meaning a clean start. -/
def runAfterStarts (startErrs : List (Option String)) (N : Int)
    (results : List (String × ecresult)) : RunPhase :=
  if startErrs.any Option.isSome then RunPhase.failed
  else RunPhase.verified (runVerification N results)

/-- The per-signer index validation (`src/main.go:139-143`,
`src/main.go:309-313`): a signer whose `KeyInt` is negative makes the driver
panic before its party instance is created; `none` models that panic. -/
def checkSignerIndex (p : PartyID) : Option PartyID :=
  if p.key < 0 then none else some p

/-! ## Helper lemmas -/

/-- The router's inner loop distributes over list append: each recipient's
outcome is independent of the outcomes before it. -/
theorem routeRecipients_append (e : String → Option LocalParty) (s : PartyID)
    (payload : List Nat) (bc : Bool) (xs ys : List PartyID) :
    routeRecipients e s payload bc (xs ++ ys)
      = ((routeRecipients e s payload bc xs).1 ++ (routeRecipients e s payload bc ys).1,
         (routeRecipients e s payload bc xs).2 ++ (routeRecipients e s payload bc ys).2) := by
  induction xs with
  | nil => simp [routeRecipients]
  | cons t xs ih => simp [routeRecipients, ih]

/-- When every addressed recipient has an engine, the consume calls of one
envelope are exactly the addressed recipients minus the sender, in order. -/
theorem routeRecipients_deliveries (e : String → Option LocalParty) (s : PartyID)
    (payload : List Nat) (bc : Bool) (ts : List PartyID)
    (h : ∀ t ∈ ts, (e t.id).isSome) :
    (routeRecipients e s payload bc ts).1
      = (ts.filter (fun t => !decide (t.id = s.id))).map (fun t => (s.id, t.id)) := by
  induction ts with
  | nil => simp [routeRecipients]
  | cons t ts ih =>
      have ht : (e t.id).isSome := h t (by simp)
      have hts : ∀ u ∈ ts, (e u.id).isSome := fun u hu => h u (by simp [hu])
      obtain ⟨p, hp⟩ := Option.isSome_iff_exists.mp ht
      by_cases hself : t.id = s.id
      · simp [routeRecipients, deliverTo, hself, ih hts]
      · simp [routeRecipients, deliverTo, hself, hp, ih hts]

/-- Every consume-call pair recorded by the inner loop has the sender's id
first and a recipient id distinct from it. -/
theorem mem_routeRecipients (e : String → Option LocalParty) (s : PartyID)
    (payload : List Nat) (bc : Bool) :
    ∀ (ts : List PartyID) (pr : String × String),
      pr ∈ (routeRecipients e s payload bc ts).1 → pr.1 = s.id ∧ pr.2 ≠ s.id
  | [], pr, h => by simp [routeRecipients] at h
  | t :: ts, pr, h => by
      simp only [routeRecipients, List.mem_append] at h
      rcases h with h | h
      · by_cases hself : t.id = s.id
        · simp [deliverTo, hself] at h
        · cases he : e t.id with
          | none => simp [deliverTo, hself, he] at h
          | some p =>
              simp [deliverTo, hself, he] at h
              subst h
              exact ⟨rfl, hself⟩
      · exact mem_routeRecipients e s payload bc ts pr h

/-- Every consume-call pair recorded for one envelope has the sender's id
first and a recipient id distinct from it. -/
theorem mem_routeOne (e : String → Option LocalParty) (m : WireMsg)
    (pr : String × String) (h : pr ∈ (routeOne e m).1) :
    pr.1 = m.sender.id ∧ pr.2 ≠ m.sender.id := by
  cases hw : m.wire with
  | none => simp [routeOne, hw] at h
  | some pl =>
      rw [routeOne, hw] at h
      exact mem_routeRecipients e m.sender pl.1 pl.2.isBroadcast pl.2.To pr h

/-- The full committee of the run: the importer and the three signers. -/
def committeeAll : List PartyID := importerParty :: signerParties

/-- A trivially accepting engine, standing in for a `LocalParty` whose
`UpdateFromBytes` succeeds. -/
def acceptingParty : LocalParty := ⟨fun _ _ _ => (true, none)⟩

/-- An engine table in which every id resolves, as the run's fully populated
`partyMap` does. -/
def allEngines : String → Option LocalParty := fun _ => some acceptingParty

/-! ## C3 -/

/-- C3: for every envelope the router processes, the recipient set is the
routing header's explicit `To` list with the sender excluded; in particular,
for a broadcast envelope whose header addresses the whole committee (as the
resharing library populates `To` even for broadcasts), the recipient set is
every other committee member. -/
theorem router_recipient_set
    (e : String → Option LocalParty) (s : PartyID) (payload : List Nat)
    (routing : MessageRouting) (committee : List PartyID)
    (hengines : ∀ t ∈ routing.To, (e t.id).isSome)
    (hbc : routing.isBroadcast = true → routing.To = committee) :
    (routeOne e ⟨s, some (payload, routing)⟩).1
      = (routing.To.filter (fun t => !decide (t.id = s.id))).map (fun t => (s.id, t.id))
    ∧ (routing.isBroadcast = true →
        (routeOne e ⟨s, some (payload, routing)⟩).1
          = (committee.filter (fun t => !decide (t.id = s.id))).map
              (fun t => (s.id, t.id))) := by
  have hbase :
      (routeOne e ⟨s, some (payload, routing)⟩).1
        = (routing.To.filter (fun t => !decide (t.id = s.id))).map
            (fun t => (s.id, t.id)) :=
    routeRecipients_deliveries e s payload routing.isBroadcast routing.To hengines
  exact ⟨hbase, fun hb => by rw [hbase, hbc hb]⟩

/-- C3 witness: signer1 broadcasts to the whole committee; the consume calls
go to the importer, signer2 and signer3 only. -/
theorem router_recipient_set_witness :
    (routeOne allEngines
        ⟨⟨"signer1", "Signer1", 1⟩, some ([], ⟨committeeAll, true⟩)⟩).1
      = [("signer1", "importer"), ("signer1", "signer2"), ("signer1", "signer3")] := by
  have h := router_recipient_set allEngines ⟨"signer1", "Signer1", 1⟩ []
      ⟨committeeAll, true⟩ committeeAll (fun t _ => rfl) (fun _ => rfl)
  rw [h.2 rfl]
  decide

/-! ## C4 -/

/-- C4: over any sequence of envelopes the router processes, no consume call
ever targets the envelope's own sender: every recorded `(sender, recipient)`
pair has distinct components. -/
theorem router_never_delivers_to_sender
    (e : String → Option LocalParty) (ms : List WireMsg)
    (pr : String × String) (h : pr ∈ (routeAll e ms).1) :
    pr.2 ≠ pr.1 := by
  induction ms with
  | nil => simp [routeAll] at h
  | cons m ms ih =>
      simp only [routeAll, List.mem_append] at h
      rcases h with h | h
      · have h2 := mem_routeOne e m pr h
        rw [h2.1]
        exact h2.2
      · exact ih h

/-- C4 witness: in a concrete two-envelope run, the pair delivering signer1's
broadcast to the importer never has recipient equal to sender. -/
theorem router_never_delivers_to_sender_witness :
    ("signer1", "importer")
        ∈ (routeAll allEngines
            [⟨⟨"signer1", "Signer1", 1⟩, some ([], ⟨committeeAll, true⟩)⟩,
             ⟨⟨"importer", "Importer", 0⟩, none⟩]).1 ∧
      ("importer" : String) ≠ "signer1" := by
  refine ⟨by decide, ?_⟩
  exact router_never_delivers_to_sender allEngines
    [⟨⟨"signer1", "Signer1", 1⟩, some ([], ⟨committeeAll, true⟩)⟩,
     ⟨⟨"importer", "Importer", 0⟩, none⟩]
    ("signer1", "importer") (by decide)

/-! ## C5 -/

/-- C5: a recipient with no engine instance, or one whose consume call
errors or rejects, yields a recorded `RouteError` and nothing else: the
envelope's remaining recipients are processed exactly as they would be
otherwise, subsequent envelopes on the stream are processed, the run is not
aborted, and the failed recipient is attempted exactly once (no retry). -/
theorem router_delivery_errors_nonfatal
    (e : String → Option LocalParty) (s : PartyID) (payload : List Nat) (bc : Bool)
    (pre post : List PartyID) (bad : PartyID) (hb : bad.id ≠ s.id) :
    (routeRecipients e s payload bc (pre ++ bad :: post)
       = ((routeRecipients e s payload bc pre).1 ++ (deliverTo e s payload bc bad).1
            ++ (routeRecipients e s payload bc post).1,
          (routeRecipients e s payload bc pre).2 ++ (deliverTo e s payload bc bad).2
            ++ (routeRecipients e s payload bc post).2))
    ∧ (e bad.id = none →
        deliverTo e s payload bc bad = ([], [RouteError.missingParty bad.id]))
    ∧ (∀ p, e bad.id = some p → (p.updateFromBytes payload s bc).1 = false →
        RouteError.notOk bad.id s.id ∈ (deliverTo e s payload bc bad).2)
    ∧ (∀ p em, e bad.id = some p → (p.updateFromBytes payload s bc).2 = some em →
        RouteError.updateError bad.id s.id ∈ (deliverTo e s payload bc bad).2)
    ∧ (∀ m ms, routeAll e (m :: ms)
        = ((routeOne e m).1 ++ (routeAll e ms).1,
           (routeOne e m).2 ++ (routeAll e ms).2)) := by
  refine ⟨?_, ?_, ?_, ?_, fun m ms => rfl⟩
  · rw [show pre ++ bad :: post = pre ++ ([bad] ++ post) by simp,
        routeRecipients_append, routeRecipients_append]
    simp [routeRecipients]
  · intro hnone
    simp [deliverTo, hb, hnone]
  · intro p hp hok
    simp [deliverTo, hb, hp, hok]
  · intro p em hp herr
    simp [deliverTo, hb, hp, herr]

/-- An engine table missing the id `"ghost"`, every other id resolving. -/
def ghostEngines : String → Option LocalParty :=
  fun i => if i = "ghost" then none else some acceptingParty

/-- C5 witness: with `"ghost"` unresolvable, routing signer1's envelope to
importer, ghost, signer3 records one missing-party error for ghost, still
delivers to importer and signer3, and the next envelope is still processed. -/
theorem router_delivery_errors_nonfatal_witness :
    routeRecipients ghostEngines ⟨"signer1", "Signer1", 1⟩ [] true
        ([importerParty] ++ ⟨"ghost", "Ghost", 9⟩ :: [⟨"signer3", "Signer3", 3⟩])
      = ([("signer1", "importer"), ("signer1", "signer3")],
         [RouteError.missingParty "ghost"])
    ∧ deliverTo ghostEngines ⟨"signer1", "Signer1", 1⟩ [] true ⟨"ghost", "Ghost", 9⟩
      = ([], [RouteError.missingParty "ghost"]) := by
  have h := router_delivery_errors_nonfatal ghostEngines ⟨"signer1", "Signer1", 1⟩
    [] true [importerParty] [⟨"signer3", "Signer3", 3⟩] ⟨"ghost", "Ghost", 9⟩
    (by decide)
  refine ⟨?_, h.2.1 rfl⟩
  rw [h.1, h.2.1 rfl]
  decide

/-! ## C9 -/

/-- C9: an envelope whose serialization fails is delivered to no recipient at
all — the router records the failure and skips the whole envelope — and the
subsequent envelopes on the shared stream are processed unchanged. -/
theorem serialize_failure_skips_envelope
    (e : String → Option LocalParty) (s : PartyID) (rest : List WireMsg) :
    (routeOne e ⟨s, none⟩).1 = []
    ∧ routeAll e (⟨s, none⟩ :: rest)
        = ((routeAll e rest).1,
           RouteError.serializeError s.id :: (routeAll e rest).2) := by
  exact ⟨rfl, by simp [routeAll, routeOne]⟩

/-! ## C2 -/

/-- C2: in a successful run — the first three completions on `signerEndCh`
come from three distinct identities — the collector consumes exactly three
completions (blocking for that many and no more), and the results map holds
exactly one entry per identity, keyed by it, with no duplicate keys; when
those identities are the new committee's, the key set is exactly the new
committee. -/
theorem run_collects_exactly_three
    (r1 r2 r3 : ecresult) (rest : List ecresult)
    (h12 : r1.pid.id ≠ r2.pid.id) (h13 : r1.pid.id ≠ r3.pid.id)
    (h23 : r2.pid.id ≠ r3.pid.id) :
    collectResults (r1 :: r2 :: r3 :: rest)
        = [(r1.pid.id, r1), (r2.pid.id, r2), (r3.pid.id, r3)]
    ∧ collectResults (r1 :: r2 :: r3 :: rest) = collectResults [r1, r2, r3]
    ∧ (collectResults (r1 :: r2 :: r3 :: rest)).length = expectedCompletions
    ∧ ((collectResults (r1 :: r2 :: r3 :: rest)).map Prod.fst).Nodup
    ∧ (([r1, r2, r3].map (fun r => r.pid.id)).Perm (signerParties.map PartyID.id) →
        ((collectResults (r1 :: r2 :: r3 :: rest)).map Prod.fst).Perm
          (signerParties.map PartyID.id)) := by
  have hmain : collectResults (r1 :: r2 :: r3 :: rest)
      = [(r1.pid.id, r1), (r2.pid.id, r2), (r3.pid.id, r3)] := by
    simp [collectResults, expectedCompletions, mapInsert, h12, h13, h23,
      Ne.symm h12, Ne.symm h13, Ne.symm h23]
  refine ⟨hmain, ?_, ?_, ?_, ?_⟩
  · rw [hmain]
    simp [collectResults, expectedCompletions, mapInsert, h12, h13, h23,
      Ne.symm h12, Ne.symm h13, Ne.symm h23]
  · rw [hmain]; rfl
  · rw [hmain]
    simp [h12, h13, h23]
  · intro hperm
    rw [hmain]
    simpa using hperm

/-- C2 witness: three distinct signer completions collect into a three-entry
map keyed by the three signer ids. -/
theorem run_collects_exactly_three_witness :
    collectResults
        [⟨⟨"signer1", "Signer1", 1⟩, ⟨⟨4, 1⟩⟩⟩,
         ⟨⟨"signer2", "Signer2", 2⟩, ⟨⟨5, 2⟩⟩⟩,
         ⟨⟨"signer3", "Signer3", 3⟩, ⟨⟨6, 3⟩⟩⟩]
      = [("signer1", ⟨⟨"signer1", "Signer1", 1⟩, ⟨⟨4, 1⟩⟩⟩),
         ("signer2", ⟨⟨"signer2", "Signer2", 2⟩, ⟨⟨5, 2⟩⟩⟩),
         ("signer3", ⟨⟨"signer3", "Signer3", 3⟩, ⟨⟨6, 3⟩⟩⟩)] :=
  (run_collects_exactly_three
    ⟨⟨"signer1", "Signer1", 1⟩, ⟨⟨4, 1⟩⟩⟩
    ⟨⟨"signer2", "Signer2", 2⟩, ⟨⟨5, 2⟩⟩⟩
    ⟨⟨"signer3", "Signer3", 3⟩, ⟨⟨6, 3⟩⟩⟩
    [] (by decide) (by decide) (by decide)).1

/-! ## C6 -/

/-- A first completion reported for signer1. -/
def dupFirst : ecresult := ⟨⟨"signer1", "Signer1", 1⟩, ⟨⟨5, 1⟩⟩⟩

/-- A second, different completion reported for the same identity signer1. -/
def dupSecond : ecresult := ⟨⟨"signer1", "Signer1", 1⟩, ⟨⟨7, 1⟩⟩⟩

/-- A completion reported for signer2. -/
def dupThird : ecresult := ⟨⟨"signer2", "Signer2", 2⟩, ⟨⟨9, 2⟩⟩⟩

/-- C6 counterexample: when a second completion for signer1 arrives, the
collector does not reject it — the duplicate replaces the first entry, the
first completion vanishes from the results map, and the loop still counts
the duplicate toward its three receives, leaving only two entries; no error
value exists anywhere in the collection loop's codomain. -/
theorem duplicate_completion_not_rejected :
    ("signer1", dupSecond) ∈ collectResults [dupFirst, dupSecond, dupThird]
    ∧ ("signer1", dupFirst) ∉ collectResults [dupFirst, dupSecond, dupThird]
    ∧ (collectResults [dupFirst, dupSecond, dupThird]).length = 2 := by
  decide

/-- C6 amended: a second completion for an already-collected identity is
silently absorbed — it overwrites the earlier entry in the results map and
still counts as one of the three channel receives, so the map ends up one
entry short; no aggregation error is raised (the collector has no error
output). -/
theorem duplicate_completion_overwrites
    (r r2 s : ecresult) (hdup : r2.pid.id = r.pid.id) (hs : s.pid.id ≠ r.pid.id) :
    collectResults [r, r2, s] = [(r.pid.id, r2), (s.pid.id, s)]
    ∧ (collectResults [r, r2, s]).length + 1 = expectedCompletions := by
  have hmain : collectResults [r, r2, s] = [(r.pid.id, r2), (s.pid.id, s)] := by
    simp [collectResults, expectedCompletions, mapInsert, hdup, hs, Ne.symm hs]
  exact ⟨hmain, by rw [hmain]; rfl⟩

/-- C6 amended witness: the concrete duplicate stream collects into the
two-entry map holding the second signer1 completion. -/
theorem duplicate_completion_overwrites_witness :
    collectResults [dupFirst, dupSecond, dupThird]
      = [("signer1", dupSecond), ("signer2", dupThird)] :=
  (duplicate_completion_overwrites dupFirst dupSecond dupThird
    rfl (by decide)).1

/-! ## C10 -/

/-- A key of `mapInsert m k v` is a key of `m` or the inserted key. -/
theorem mem_mapInsert_fst (m : List (String × ecresult)) (k : String)
    (v : ecresult) (x : String) (hx : x ∈ (mapInsert m k v).map Prod.fst) :
    x ∈ m.map Prod.fst ∨ x = k := by
  cases hany : m.any (fun p => p.1 = k) with
  | true =>
      simp only [mapInsert, hany, if_true, List.map_map, List.mem_map,
        Function.comp] at hx
      obtain ⟨p, hp, hpx⟩ := hx
      by_cases hpk : p.1 = k
      · right
        rw [if_pos hpk] at hpx
        exact hpx.symm
      · left
        rw [if_neg hpk] at hpx
        exact hpx ▸ List.mem_map_of_mem Prod.fst hp
  | false =>
    simp only [mapInsert, hany, Bool.false_eq_true, if_false, List.map_append,
      List.mem_append, List.map_cons, List.map_nil, List.mem_cons,
      List.not_mem_nil, or_false] at hx
    exact hx

/-- A key of the collection fold is a key of the accumulator or one of the
folded results' party ids. -/
theorem foldl_insert_keys (l : List ecresult) :
    ∀ (acc : List (String × ecresult)) (x : String),
      x ∈ ((l.foldl (fun a r => mapInsert a r.pid.id r) acc).map Prod.fst) →
      x ∈ acc.map Prod.fst ∨ x ∈ l.map (fun r => r.pid.id) := by
  induction l with
  | nil => intro acc x hx; exact Or.inl hx
  | cons r l ih =>
      intro acc x hx
      rcases ih (mapInsert acc r.pid.id r) x hx with h | h
      · rcases mem_mapInsert_fst acc r.pid.id r x h with h2 | h2
        · exact Or.inl h2
        · exact Or.inr (by simp [h2])
      · exact Or.inr (by simp [h])

/-- C10: the importer's end channel is wired to the discard channel and each
signer's to `signerEndCh`, so when every completion on `signerEndCh` carries
a signer identity (as the wiring guarantees), the collected results map has
no entry for the importer — hence the share sum, which folds over that map,
never includes the importer's result — and the expected completion count is
the new committee's size, 3, not 4. -/
theorem importer_result_discarded
    (stream : List ecresult) (hw : ∀ r ∈ stream, r.pid ∈ signerParties) :
    ((importerParty, EndChannel.discard) ∈ endChannelAssignment
       ∧ ∀ p ∈ signerParties, (p, EndChannel.signerEnd) ∈ endChannelAssignment)
    ∧ (∀ x ∈ (collectResults stream).map Prod.fst, x ≠ importerParty.id)
    ∧ expectedCompletions = signerParties.length := by
  refine ⟨⟨by decide, by decide⟩, ?_, rfl⟩
  intro x hx
  rcases foldl_insert_keys (stream.take expectedCompletions) [] x hx with h | h
  · simp at h
  · obtain ⟨r, hr, hrx⟩ := List.mem_map.mp h
    have hr2 : r ∈ stream := List.take_subset expectedCompletions stream hr
    have hsig : r.pid ∈ signerParties := hw r hr2
    have : ∀ p ∈ signerParties, p.id ≠ importerParty.id := by decide
    exact hrx ▸ this r.pid hsig

/-- C10 witness: with three signer completions on the channel, the importer
never appears among the collected keys. -/
theorem importer_result_discarded_witness :
    (importerParty, EndChannel.discard) ∈ endChannelAssignment
    ∧ ∀ x ∈ (collectResults
          [⟨⟨"signer1", "Signer1", 1⟩, ⟨⟨4, 1⟩⟩⟩,
           ⟨⟨"signer2", "Signer2", 2⟩, ⟨⟨5, 2⟩⟩⟩,
           ⟨⟨"signer3", "Signer3", 3⟩, ⟨⟨6, 3⟩⟩⟩]).map Prod.fst,
        x ≠ importerParty.id := by
  have h := importer_result_discarded
    [⟨⟨"signer1", "Signer1", 1⟩, ⟨⟨4, 1⟩⟩⟩,
     ⟨⟨"signer2", "Signer2", 2⟩, ⟨⟨5, 2⟩⟩⟩,
     ⟨⟨"signer3", "Signer3", 3⟩, ⟨⟨6, 3⟩⟩⟩]
    (by decide)
  exact ⟨h.1.1, h.2.1⟩

/-! ## C1 -/

/-- A collected results map whose shares sum to 6 — not the secret 0xff. -/
def mismatchedResults : List (String × ecresult) :=
  [("signer1", ⟨⟨"signer1", "Signer1", 1⟩, ⟨⟨1, 1⟩⟩⟩),
   ("signer2", ⟨⟨"signer2", "Signer2", 2⟩, ⟨⟨2, 2⟩⟩⟩),
   ("signer3", ⟨⟨"signer3", "Signer3", 3⟩, ⟨⟨3, 3⟩⟩⟩)]

/-- C1: the code computes `totalXi` — the sum of the collected `Xi` values
reduced modulo the curve order — but the success/failure branch compares
`plaintextKey` against `impSave.LocalSecrets.Xi`, which was itself set from
`plaintextKey`.  The comparison is therefore constantly true: on a results
map whose reduced share sum is 6 ≠ 0xff the run still reports success, while
the comparison the surrounding comments describe would fail.  The claim's
"success iff reconstructed value equals the original secret" does not hold
in either curve instantiation. -/
theorem verification_compares_wrong_value :
    runVerification secp256k1N mismatchedResults = true
    ∧ totalXi secp256k1N mismatchedResults ≠ plaintextKey
    ∧ intendedVerification secp256k1N mismatchedResults = false
    ∧ runVerification ed25519N mismatchedResults = true
    ∧ totalXi ed25519N mismatchedResults ≠ plaintextKey
    ∧ (∀ (N : Int) (results : List (String × ecresult)),
        runVerification N results = true) := by
  refine ⟨rfl, by decide, by decide, rfl, by decide, fun N results => rfl⟩

/-! ## C7 -/

/-- C7: when any party's engine `Start()` returns an error, the run fails —
the process aborts via `panic`/`log.Fatalf` before the reconstruction check —
and the outcome is independent of any collected results: no modular-sum
check is consulted. -/
theorem fatal_start_aborts_run
    (startErrs : List (Option String)) (N : Int)
    (results : List (String × ecresult))
    (h : startErrs.any Option.isSome = true) :
    runAfterStarts startErrs N results = RunPhase.failed
    ∧ (∀ other : List (String × ecresult),
        runAfterStarts startErrs N results = runAfterStarts startErrs N other)
    ∧ (∀ b : Bool, runAfterStarts startErrs N results ≠ RunPhase.verified b) := by
  have hmain : runAfterStarts startErrs N results = RunPhase.failed := by
    simp [runAfterStarts, h]
  refine ⟨hmain, fun other => ?_, fun b => by simp [hmain]⟩
  rw [hmain]
  simp [runAfterStarts, h]

/-- C7 witness: the spec's scenario — the engine of party index 2 fails to
start — makes the run fail with the share-sum check never consulted. -/
theorem fatal_start_aborts_run_witness :
    runAfterStarts [none, none, some "boom", none] secp256k1N mismatchedResults
      = RunPhase.failed :=
  (fatal_start_aborts_run [none, none, some "boom", none] secp256k1N
    mismatchedResults (by decide)).1

/-! ## C8 -/

/-- C8: the driver's per-signer validation panics on any negative `KeyInt`,
so a signer identity with a negative index never reaches party construction;
and every identity actually used in the run — the importer (hardcoded index
0) and the three signers — has a non-negative index, each signer passing the
validation. -/
theorem negative_index_rejected :
    (∀ p : PartyID, p.key < 0 → checkSignerIndex p = none)
    ∧ (∀ p ∈ signerParties, checkSignerIndex p = some p)
    ∧ (∀ p ∈ importerParty :: signerParties, 0 ≤ p.key) := by
  refine ⟨fun p hp => ?_, by decide, by decide⟩
  simp [checkSignerIndex, hp]

/-- C8 witness: a signer with index -1 is rejected, and the importer's index
is non-negative. -/
theorem negative_index_rejected_witness :
    checkSignerIndex ⟨"bad", "Bad", -1⟩ = none ∧ 0 ≤ importerParty.key :=
  ⟨negative_index_rejected.1 ⟨"bad", "Bad", -1⟩ (by decide),
   negative_index_rejected.2.2 importerParty (by decide)⟩
